import Mathlib

set_option maxRecDepth 10000

/-!
# Verification of `scanner.py` (async TCP connect port scanner)

A shallow embedding of the scan orchestration engine of `src/scanner.py`:
the port-expression parser (`parse_ports`), the target expander
(`expand_targets`), the per-port prober (`scan_port` / `banner_grab`), the
per-host scheduler (`scan_host`, plus a small-step model of its semaphore
discipline) and the session driver loop of `main_async`.

Conventions of the embedding:
* Python strings are handled through their character lists (`String.data`)
  with structurally recursive helpers, so that concrete runs reduce in the
  kernel.
* Python exceptions (all derived from `Exception`) are the inductive
  `PyExc`; fallible code returns `Except PyExc`.
* Wall-clock durations (timeouts, completion times) are exact rationals;
  `asyncio.wait_for` is the function `wait_for` below, which yields
  `TimeoutError` when the awaited operation needs more time than the
  budget allows.
* The nondeterministic network is an explicit environment `ProbeEnv`
  (one per host/port pair): how long the connect takes and what it
  returns, what a banner read yields, and what `wait_closed` does.
-/

/-- Python exception values relevant to `scanner.py` (all subclasses of
`Exception`; `connectionRefused` is also an `OSError` in Python but the
source lists it separately in its `except` clause). -/
inductive PyExc where
  | timeoutError
  | connectionRefused
  | osError
  | attributeError
  | valueError
  | otherExc
deriving DecidableEq, Repr

instance {ε : Type u} {α : Type v} [DecidableEq ε] [DecidableEq α] :
    DecidableEq (Except ε α) := fun x y =>
  match x, y with
  | .ok a, .ok b =>
    if h : a = b then isTrue (h ▸ rfl) else isFalse (fun he => h (Except.ok.inj he))
  | .error a, .error b =>
    if h : a = b then isTrue (h ▸ rfl) else isFalse (fun he => h (Except.error.inj he))
  | .ok _, .error _ => isFalse (fun he => Except.noConfusion he)
  | .error _, .ok _ => isFalse (fun he => Except.noConfusion he)

/-! ## Character-level string helpers (Python `str` methods) -/

/-- ASCII whitespace recognized by Python's `str.strip` / `int()`. -/
def isSpaceChar (c : Char) : Bool :=
  c = ' ' || c = '\t' || c = '\n' || c = '\x0d' || c = '\x0b' || c = '\x0c'

/-- `str.strip()` on a character list. -/
def trimChars (cs : List Char) : List Char :=
  ((cs.dropWhile isSpaceChar).reverse.dropWhile isSpaceChar).reverse

/-- `str.split(sep)` on a character list (Python semantics: splitting the
empty string yields `[[]]`). -/
def splitChar (sep : Char) (cs : List Char) : List (List Char) :=
  match cs with
  | [] => [[]]
  | c :: rest =>
    match splitChar sep rest with
    | [] => [[]]
    | r :: rs => if c = sep then [] :: r :: rs else (c :: r) :: rs

def isDigitChar (c : Char) : Bool := '0' ≤ c && c ≤ '9'

def digitVal (c : Char) : Nat := c.toNat - 48

/-- Digit-string body of Python `int()`: one or more ASCII digits, with
single underscores permitted between digits (`1_000`), accumulating left
to right. -/
def pyIntDigitsAux (acc : Nat) : List Char → Option Nat
  | [] => some acc
  | c :: cs =>
    if isDigitChar c then pyIntDigitsAux (acc * 10 + digitVal c) cs
    else if c = '_' then
      match cs with
      | c2 :: cs2 =>
        if isDigitChar c2 then pyIntDigitsAux (acc * 10 + digitVal c2) cs2 else none
      | [] => none
    else none

def pyIntDigits : List Char → Option Nat
  | [] => none
  | c :: cs => if isDigitChar c then pyIntDigitsAux (digitVal c) cs else none

/-- Python `int(s)`: surrounding whitespace stripped, optional single
leading sign, then a digit string.  `none` models `ValueError`. -/
def pyInt (cs : List Char) : Option Int :=
  match trimChars cs with
  | '+' :: rest => (pyIntDigits rest).map Int.ofNat
  | '-' :: rest => (pyIntDigits rest).map (fun n => -(n : Int))
  | rest => (pyIntDigits rest).map Int.ofNat

/-! ## `parse_ports` (scanner.py lines 26-40) -/

/-- Python `range(lo, hi + 1)` as a list of integers (`lo ≤ hi` expected
after the source's swap; empty when `hi < lo`). -/
def intRange (lo hi : Int) : List Int :=
  (List.range (hi + 1 - lo).toNat).map (fun i => lo + (i : Int))

/-- The values contributed by one (already stripped, nonempty) token of the
port expression: `a-b` ranges split at the first `-` with both halves fed
to `int()` and swapped when `a > b`; otherwise a single `int()` value.
`ValueError` on an unparseable token. -/
def portToken (part : List Char) : Except PyExc (List Int) :=
  if part.contains '-' then
    match pyInt (part.takeWhile (fun c => c ≠ '-')),
          pyInt ((part.dropWhile (fun c => c ≠ '-')).tail) with
    | some a, some b => if a > b then .ok (intRange b a) else .ok (intRange a b)
    | _, _ => .error .valueError
  else
    match pyInt part with
    | some v => .ok [v]
    | none => .error .valueError

/-- `ports.update(vs)`: Python-set accumulation, keeping one copy of each
value (the eventual order is irrelevant, the result is sorted at the end). -/
def setUpdate (s : List Int) (vs : List Int) : List Int :=
  vs.foldl (fun s v => if v ∈ s then s else s ++ [v]) s

/-- The `for part in ports_arg.split(',')` loop of `parse_ports`:
strip each token, skip empty ones, accumulate the token's values into the
set, stopping with `ValueError` at the first bad token. -/
def parsePortsAux (parts : List (List Char)) (acc : List Int) : Except PyExc (List Int) :=
  match parts with
  | [] => .ok acc
  | part :: rest =>
    let part' := trimChars part
    if part' = [] then parsePortsAux rest acc
    else
      match portToken part' with
      | .ok vs => parsePortsAux rest (setUpdate acc vs)
      | .error e => .error e

/-- `parse_ports` (scanner.py lines 26-40): split on commas, accumulate a
set of values, then return `sorted(p for p in ports if 1 <= p <= 65535)`. -/
def parse_ports (s : String) : Except PyExc (List Int) :=
  (parsePortsAux (splitChar ',' s.data) []).map
    (fun ports =>
      List.insertionSort (fun a b => a ≤ b)
        (ports.filter (fun p => decide (1 ≤ p) && decide (p ≤ 65535))))


/-! ## `expand_targets` (scanner.py lines 43-65)

The embedding models `ipaddress.ip_network(target_arg, strict=False)`
as CPython implements it (checked differentially against CPython 3.11):
the string is split at its last `/` (CPython's `rsplit('/', 1)`); the
address part is parsed first as an IPv4 dotted quad, then as an IPv6
literal (hex groups, at most one `::`, an optional embedded trailing
IPv4, an optional `%zone` scope suffix); the prefix part is a pure-digit
prefix length or, for IPv4 only, a dotted-quad netmask or hostmask with
contiguous bits; `strict=False` masks the host bits away and `.hosts()`
enumerates the usable addresses.  Anything `ip_network` rejects falls to
the hostname branch, which returns the same one-element list the source
returns for every non-CIDR string. -/

/-- One decimal octet of a dotted quad, per `ipaddress._parse_octet`:
nonempty, at most 3 ASCII digits, no leading zero, at most 255. -/
def parseOctet (cs : List Char) : Option Nat :=
  if cs = [] then none
  else if ¬ cs.all isDigitChar then none
  else if cs.length > 3 then none
  else if cs.length > 1 ∧ cs.head? = some '0' then none
  else
    let v := cs.foldl (fun acc c => acc * 10 + digitVal c) 0
    if v ≤ 255 then some v else none

/-- Python `ipaddress.IPv4Address(s)` as a 32-bit numeric address. -/
def parseIPv4 (cs : List Char) : Option Nat :=
  match splitChar '.' cs with
  | [a, b, c, d] =>
    match parseOctet a, parseOctet b, parseOctet c, parseOctet d with
    | some a, some b, some c, some d =>
      some (a * 2 ^ 24 + b * 2 ^ 16 + c * 2 ^ 8 + d)
    | _, _, _, _ => none
  | _ => none

/-- `_prefix_from_prefix_string`: ASCII digits only (so no sign and no
whitespace), value at most `maxLen` (32 for IPv4, 128 for IPv6). -/
def parsePrefixLen (maxLen : Nat) (cs : List Char) : Option Nat :=
  if cs = [] then none
  else if ¬ cs.all isDigitChar then none
  else
    let v := cs.foldl (fun acc c => acc * 10 + digitVal c) 0
    if v ≤ maxLen then some v else none

/-- `_count_righthand_zero_bits` (fuel-based; the fuel is the bit
width). -/
def countRighthandZeroBitsAux : Nat → Nat → Nat
  | 0, _ => 0
  | fuel + 1, n => if n % 2 = 1 then 0 else 1 + countRighthandZeroBitsAux fuel (n / 2)

def countRighthandZeroBits (n bits : Nat) : Nat :=
  if n = 0 then bits else min bits (countRighthandZeroBitsAux bits n)

/-- `_prefix_from_ip_int` for IPv4: turn a 32-bit netmask into a prefix
length, requiring the set bits to be contiguous from the top. -/
def prefixFromIpInt (ip : Nat) : Option Nat :=
  let tz := countRighthandZeroBits ip 32
  let prefixlen := 32 - tz
  if ip >>> tz = 2 ^ prefixlen - 1 then some prefixlen else none

/-- `IPv4Network._make_netmask` on a string: a pure-digit prefix length,
else a dotted-quad netmask, else a dotted-quad hostmask
(`_prefix_from_ip_string`). -/
def makeNetmaskV4 (cs : List Char) : Option Nat :=
  match parsePrefixLen 32 cs with
  | some p => some p
  | none =>
    match parseIPv4 cs with
    | some ip =>
      match prefixFromIpInt ip with
      | some p => some p
      | none => prefixFromIpInt (2 ^ 32 - 1 - ip)
    | none => none

def isHexDigitChar (c : Char) : Bool :=
  isDigitChar c || ('a' ≤ c && c ≤ 'f') || ('A' ≤ c && c ≤ 'F')

def hexVal (c : Char) : Nat :=
  if isDigitChar c then digitVal c
  else if 'a' ≤ c && c ≤ 'f' then c.toNat - 87
  else c.toNat - 55

/-- `_parse_hextet`: at most 4 hex digits (the empty string is rejected,
as `int('', 16)` raises). -/
def parseHextet (cs : List Char) : Option Nat :=
  if cs = [] then none
  else if ¬ cs.all isHexDigitChar then none
  else if cs.length > 4 then none
  else some (cs.foldl (fun acc c => acc * 16 + hexVal c) 0)

def hexChar (d : Nat) : Char :=
  if d < 10 then Char.ofNat (48 + d) else Char.ofNat (87 + d)

/-- Lowercase hex digits of a natural number, Python `'%x' % n`
(fuel-based so it reduces in the kernel). -/
def natToHexCharsAux : Nat → Nat → List Char
  | 0, _ => []
  | fuel + 1, n =>
    if n < 16 then [hexChar n]
    else natToHexCharsAux fuel (n / 16) ++ [hexChar (n % 16)]

def natToHexChars (n : Nat) : List Char := natToHexCharsAux (n + 1) n

/-- `_split_scope_id`: an optional `%zone` suffix; the zone must be
nonempty and contain no further `%`.  Returns the address part. -/
def splitScopeId (cs : List Char) : Option (List Char) :=
  if cs.contains '%' then
    let addr := cs.takeWhile (fun c => c ≠ '%')
    let zone := (cs.dropWhile (fun c => c ≠ '%')).tail
    if zone = [] then none
    else if zone.contains '%' then none
    else some addr
  else some cs

/-- The embedded trailing IPv4 of an IPv6 literal: when the last
colon-group contains a `.` it is parsed as a dotted quad and replaced by
its two 16-bit groups (CPython renders them as hex and reparses them,
which is value-preserving). -/
def embedTrailingV4 (parts : List (List Char)) : Option (List (List Char)) :=
  match parts.getLast? with
  | none => none
  | some last =>
    if last.contains '.' then
      match parseIPv4 last with
      | none => none
      | some v4 =>
        some (parts.dropLast ++ [natToHexChars (v4 / 2 ^ 16), natToHexChars (v4 % 2 ^ 16)])
    else some parts

def foldHextets : List (List Char) → Nat → Option Nat
  | [], acc => some acc
  | p :: rest, acc =>
    match parseHextet p with
    | none => none
    | some v => foldHextets rest (acc * 2 ^ 16 + v)

/-- Indices of empty groups strictly inside the part list: the `::`
candidates of `_ip_int_from_string`. -/
def emptyInteriorIdxs (parts : List (List Char)) : List Nat :=
  (List.range parts.length).filter
    (fun i => decide (0 < i) && decide (i < parts.length - 1)
      && decide (parts.getD i ['x'] = []))

/-- `IPv6Address._ip_int_from_string` (after scope-id removal): split on
`:` (at least 3 parts), expand an embedded trailing IPv4 (at most 9
parts afterwards), locate the single optional `::`, check the group
counts and the leading/trailing colon rules, and assemble the 128-bit
value from the groups before and after the gap. -/
def parseIPv6Core (cs : List Char) : Option Nat :=
  let parts0 := splitChar ':' cs
  if parts0.length < 3 then none
  else
    match embedTrailingV4 parts0 with
    | none => none
    | some parts =>
      if parts.length > 9 then none
      else
        match emptyInteriorIdxs parts with
        | [] =>
          if parts.length ≠ 8 then none
          else if parts.headD ['x'] = [] then none
          else if parts.getLastD ['x'] = [] then none
          else foldHextets parts 0
        | [si] =>
          let headEmpty := decide (parts.headD ['x'] = [])
          let lastEmpty := decide (parts.getLastD ['x'] = [])
          let partsHi := if headEmpty then si - 1 else si
          let partsLo :=
            if lastEmpty then parts.length - si - 2 else parts.length - si - 1
          if headEmpty && decide (partsHi ≠ 0) then none
          else if lastEmpty && decide (partsLo ≠ 0) then none
          else if partsHi + partsLo ≥ 8 then none
          else
            match foldHextets (parts.take partsHi) 0 with
            | none => none
            | some hv =>
              foldHextets (parts.drop (parts.length - partsLo))
                (hv * 2 ^ (16 * (8 - partsHi - partsLo)))
        | _ => none

/-- `IPv6Address(s)` (with optional scope id) as a 128-bit value. -/
def parseIPv6 (cs : List Char) : Option Nat :=
  match splitScopeId cs with
  | none => none
  | some addr => parseIPv6Core addr

/-- `IPv4Network.hosts()` for the network address `network` with prefix
length `p`: all usable addresses, i.e. everything but the network and
broadcast addresses, except that a /31 yields both of its addresses and a
/32 yields its single address. -/
def hostsOfNetwork (network p : Nat) : List Nat :=
  if 31 ≤ p then (List.range (2 ^ (32 - p))).map (fun i => network + i)
  else (List.range (2 ^ (32 - p) - 2)).map (fun i => network + 1 + i)

/-- `IPv6Network.hosts()`: a /128 yields its single address, a /127 both
addresses of the pair, and otherwise every address except the
Subnet-Router anycast (network) address — the top address is included,
unlike IPv4's broadcast. -/
def hostsOfNetworkV6 (network p : Nat) : List Nat :=
  if 127 ≤ p then (List.range (2 ^ (128 - p))).map (fun i => network + i)
  else (List.range (2 ^ (128 - p) - 1)).map (fun i => network + 1 + i)

/-- Decimal digits of a natural number (fuel-based so it reduces in the
kernel). -/
def natToCharsAux : Nat → Nat → List Char
  | 0, _ => []
  | fuel + 1, n =>
    if n < 10 then [Char.ofNat (48 + n)]
    else natToCharsAux fuel (n / 10) ++ [Char.ofNat (48 + n % 10)]

def natToChars (n : Nat) : List Char := natToCharsAux (n + 1) n

/-- `str(IPv4Address(a))`: dotted-quad rendering of a 32-bit address. -/
def ipToString (a : Nat) : String :=
  String.mk (natToChars (a / 2 ^ 24 % 256) ++ '.' ::
    (natToChars (a / 2 ^ 16 % 256) ++ '.' ::
      (natToChars (a / 2 ^ 8 % 256) ++ '.' :: natToChars (a % 256))))

/-- The eight 16-bit groups of a 128-bit address, most significant
first. -/
def hextetsOf (a : Nat) : List Nat :=
  (List.range 8).map (fun i => a / 2 ^ (16 * (7 - i)) % 2 ^ 16)

/-- State-passing scan for `_compress_hextets`: current index, current
run start and length, best run start and length; a longer run strictly
beats the best, so the leftmost longest run wins. -/
def bestZeroRunAux : List Nat → Nat → Nat → Nat → Nat → Nat → Nat × Nat
  | [], _, _, _, bs, bl => (bs, bl)
  | x :: rest, i, rs, rl, bs, bl =>
    if x = 0 then
      let rs2 := if rl = 0 then i else rs
      let rl2 := rl + 1
      if rl2 > bl then bestZeroRunAux rest (i + 1) rs2 rl2 rs2 rl2
      else bestZeroRunAux rest (i + 1) rs2 rl2 bs bl
    else bestZeroRunAux rest (i + 1) 0 0 bs bl

def bestZeroRun (xs : List Nat) : Nat × Nat := bestZeroRunAux xs 0 0 0 0 0

def joinColon : List (List Char) → List Char
  | [] => []
  | [p] => p
  | p :: rest => p ++ ':' :: joinColon rest

/-- `_compress_hextets`: the leftmost longest run of at least two zero
groups becomes the `::` gap (an empty group, with an extra empty group
when the run touches either end so the join renders the double colon). -/
def compressHextets (vals : List Nat) : List (List Char) :=
  let hx := vals.map natToHexChars
  let bsbl := bestZeroRun vals
  if bsbl.2 > 1 then
    let withGap := hx.take bsbl.1 ++ [[]] ++
      (if hx.drop (bsbl.1 + bsbl.2) = [] then [[]] else hx.drop (bsbl.1 + bsbl.2))
    if bsbl.1 = 0 then [] :: withGap else withGap
  else hx

/-- `str(IPv6Address(a))`: RFC 5952 canonical form (CPython
`_string_from_ip_int`). -/
def ipv6ToString (a : Nat) : String :=
  String.mk (joinColon (compressHextets (hextetsOf a)))

/-- An address produced by CIDR expansion, tagged with its family so it
renders exactly as CPython renders it. -/
inductive IPAddr where
  | v4 (a : Nat)
  | v6 (a : Nat)
deriving DecidableEq, Repr

def ipAddrToString : IPAddr → String
  | .v4 a => ipToString a
  | .v6 a => ipv6ToString a

/-- `ipaddress.ip_network(s, strict=False)` followed by `.hosts()`:
split at the last `/` (CPython's `rsplit('/', 1)`), try
`IPv4Network` (dotted-quad address with a digit, netmask or hostmask
prefix), then `IPv6Network` (IPv6 literal with a digit prefix up to
128); mask the host bits away and enumerate the usable hosts.  `none`
models `ValueError`. -/
def ipNetworkHosts (cs : List Char) : Option (List IPAddr) :=
  let rev := cs.reverse
  let addrPart := ((rev.dropWhile (fun c => c ≠ '/')).tail).reverse
  let prefixPart := (rev.takeWhile (fun c => c ≠ '/')).reverse
  match parseIPv4 addrPart, makeNetmaskV4 prefixPart with
  | some a, some p =>
    some ((hostsOfNetwork ((a >>> (32 - p)) <<< (32 - p)) p).map IPAddr.v4)
  | _, _ =>
    match parseIPv6 addrPart, parsePrefixLen 128 prefixPart with
    | some a, some p =>
      some ((hostsOfNetworkV6 ((a >>> (128 - p)) <<< (128 - p)) p).map IPAddr.v6)
    | _, _ => none

/-- `expand_targets` (scanner.py lines 43-65).  The source's single-IP
check `ipaddress.ip_address(target_arg)` only selects between two
branches that both return `[target_arg]`, which the embedding mirrors. -/
def expand_targets (s : String) : List String :=
  let t := trimChars s.data
  if t.contains '/' then
    match ipNetworkHosts t with
    | some hs => hs.map ipAddrToString
    | none => [String.mk t]
  else
    match parseIPv4 t with
    | some _ => [String.mk t]
    | none => [String.mk t]


/-! ## `banner_grab` and `scan_port` (scanner.py lines 68-99)

The network behaviour observed by one probe is an explicit environment.
`asyncio.wait_for(op, timeout)` is modelled by comparing the operation's
completion time against the budget: over budget raises `TimeoutError`,
otherwise the operation's own result (value or raised exception)
surfaces. -/

def BANNER_READ_BYTES : Nat := 1024

/-- The environment one `scan_port` call runs against: how long the
connect takes and what it produces, how long the banner read takes and
which bytes (or exception) it yields, and what `writer.wait_closed()`
does.  The reader's pending bytes are modelled as numeric byte values. -/
structure ProbeEnv where
  connectTime : ℚ
  connectResult : Except PyExc Unit
  readTime : ℚ
  readData : Except PyExc (List Nat)
  waitClosedResult : Except PyExc Unit

/-- `asyncio.wait_for`: `TimeoutError` when the operation needs more than
the budget, else the operation's own outcome. -/
def wait_for {α : Type} (timeout elapsed : ℚ) (r : Except PyExc α) : Except PyExc α :=
  if timeout < elapsed then .error .timeoutError else r

/-- `bytes.decode(errors='replace')`, modelled at byte granularity: ASCII
bytes decode to themselves and every non-ASCII byte to U+FFFD (the
multi-byte sequences of real UTF-8 are not modelled; decoding is total
either way, which is what the engine relies on). -/
def decodeReplace (bs : List Nat) : List Char :=
  bs.map (fun b => if b < 128 then Char.ofNat b else '�')

/-- `banner_grab` (scanner.py lines 68-73): one
`reader.read(BANNER_READ_BYTES)` under `wait_for`, decoded permissively
and stripped; any exception is caught and yields `""`. -/
def banner_grab (env : ProbeEnv) (timeout : ℚ) : String :=
  match wait_for timeout env.readTime
      (env.readData.map (fun bs => bs.take BANNER_READ_BYTES)) with
  | .ok data => String.mk (trimChars (decodeReplace data))
  | .error _ => ""

/-- Ghost events recorded by the instrumented prober, used to state
where the connection was closed relative to returning. -/
inductive PEvent where
  | connectAttempted
  | connectSucceeded
  | closeCalled
deriving DecidableEq, Repr

/-- `scan_port` (scanner.py lines 76-99), instrumented with ghost events;
the semaphore wrapping the body is modelled separately by the scheduler
transition system (`SchedStep`).  Structure of the source:

* `await wait_for(open_connection(host, port), timeout)`; any raised
  exception (timeout, refusal, OS error, anything else) falls through to
  the `except` clauses, which all return `(port, False, "")`;
* on success an optional banner read with nested budget
  `min(0.5, timeout)`;
* `writer.close()` followed by `await writer.wait_closed()` where only
  `AttributeError` is swallowed locally: any other exception raised while
  closing reaches the outer `except` clauses and yields
  `(port, False, "")`. -/
def scan_port_run (_host : String) (port : Int) (timeout : ℚ) (do_banner : Bool)
    (env : ProbeEnv) : (Int × Bool × String) × List PEvent :=
  match wait_for timeout env.connectTime env.connectResult with
  | .error _ => ((port, false, ""), [.connectAttempted])
  | .ok _ =>
    let banner := if do_banner then banner_grab env (min (1/2 : ℚ) timeout) else ""
    match env.waitClosedResult with
    | .ok _ =>
      ((port, true, banner), [.connectAttempted, .connectSucceeded, .closeCalled])
    | .error .attributeError =>
      ((port, true, banner), [.connectAttempted, .connectSucceeded, .closeCalled])
    | .error _ =>
      ((port, false, ""), [.connectAttempted, .connectSucceeded, .closeCalled])

/-- The outcome `(port, is_open, banner)` of one probe. -/
def scan_port (host : String) (port : Int) (timeout : ℚ) (do_banner : Bool)
    (env : ProbeEnv) : Int × Bool × String :=
  (scan_port_run host port timeout do_banner env).1

/-- Environment of a probe whose connect is refused immediately. -/
def envRefused : ProbeEnv :=
  { connectTime := 0, connectResult := .error .connectionRefused,
    readTime := 0, readData := .ok [], waitClosedResult := .ok () }

/-- Environment of a probe whose connect succeeds instantly, with banner
bytes `"SSH-2.0 "` waiting, and a clean close. -/
def envOpen : ProbeEnv :=
  { connectTime := 0, connectResult := .ok (),
    readTime := 0, readData := .ok [83, 83, 72, 45, 50, 46, 48, 32],
    waitClosedResult := .ok () }

/-- Environment of a probe whose connect succeeds but whose
`wait_closed()` raises an `OSError` (for example `ConnectionResetError`
when the peer resets during close). -/
def envCloseErr : ProbeEnv :=
  { connectTime := 0, connectResult := .ok (),
    readTime := 0, readData := .ok [], waitClosedResult := .error .osError }


/-! ## `scan_host` (scanner.py lines 102-112)

`asyncio.as_completed` hands back the probe outcomes in completion
order, which is an arbitrary permutation of the submitted tasks; the
accumulated list is finally re-sorted by port.  The embedding takes the
completion order as an explicit parameter `order` (a permutation of
`ports`) and one `ProbeEnv` per port; each probe's outcome is the value
`scan_port` computes for it (`scan_port` never raises, see `C3`).
The `concurrency` argument bounds in-flight probes (modelled by the
`SchedStep` system below) and does not affect the collected results. -/

def scan_host (host : String) (_ports : List Int) (timeout : ℚ) (do_banner : Bool)
    (envs : Int → ProbeEnv) (order : List Int) : List (Int × Bool × String) :=
  List.insertionSort (fun a b => a.1 ≤ b.1)
    (order.map (fun p => scan_port host p timeout do_banner (envs p)))

/-! ## Scheduler semaphore discipline (scanner.py lines 76-111)

The `async with sem:` block of `scan_port` acquires one slot of
`asyncio.Semaphore(concurrency)` before the connect attempt and holds it
across the optional banner read and the close; the slot is given back
only when the coroutine returns (on the success path after
`wait_closed`, on the failure path from an `except` clause).  The
interleaved execution of the per-port tasks of `scan_host` is the
small-step system below: a state is the free slot count together with
the multiset of per-task phases, and one task moves per step. -/

inductive Phase where
  | idle
  | connecting
  | reading
  | closing
  | done
deriving DecidableEq, Repr

/-- A task is "in the region" while it is past the semaphore acquire and
before the release, i.e. between initiating its connect attempt and
returning from the probe. -/
def inRegion : Phase → Bool
  | .connecting => true
  | .reading => true
  | .closing => true
  | _ => false

/-- One interleaving step of the per-host task group.  Acquiring requires
a free slot (`sem + 1` on the left); the slot count goes back up only on
the two transitions where the probe returns (`connectFail`,
`closeDone`). -/
inductive SchedStep : Nat × Multiset Phase → Nat × Multiset Phase → Prop where
  | acquire (sem : Nat) (rest : Multiset Phase) :
      SchedStep (sem + 1, .idle ::ₘ rest) (sem, .connecting ::ₘ rest)
  | connectFail (sem : Nat) (rest : Multiset Phase) :
      SchedStep (sem, .connecting ::ₘ rest) (sem + 1, .done ::ₘ rest)
  | connectOkBanner (sem : Nat) (rest : Multiset Phase) :
      SchedStep (sem, .connecting ::ₘ rest) (sem, .reading ::ₘ rest)
  | connectOkNoBanner (sem : Nat) (rest : Multiset Phase) :
      SchedStep (sem, .connecting ::ₘ rest) (sem, .closing ::ₘ rest)
  | readDone (sem : Nat) (rest : Multiset Phase) :
      SchedStep (sem, .reading ::ₘ rest) (sem, .closing ::ₘ rest)
  | closeDone (sem : Nat) (rest : Multiset Phase) :
      SchedStep (sem, .closing ::ₘ rest) (sem + 1, .done ::ₘ rest)

/-- States reachable by the task group of one `scan_host(host, ports, …)`
call with concurrency cap `conc` and `numPorts` probe tasks: initially
every slot is free and every task is pending. -/
def SchedReachable (conc numPorts : Nat) (s : Nat × Multiset Phase) : Prop :=
  Relation.ReflTransGen SchedStep (conc, Multiset.replicate numPorts Phase.idle) s

/-- Number of tasks simultaneously inside the limiter-guarded region. -/
def regionCount (ts : Multiset Phase) : Nat :=
  Multiset.card (ts.filter (fun ph => inRegion ph = true))

/-! ## Session driver (scanner.py lines 145-172) -/

/-- Console output of the driver loop, as structured events. -/
inductive LogEvent where
  | scanning (host : String) (nports : Nat)
  | finished (host : String) (openCount : Nat) (nports : Nat)
  | errorScanning (host : String) (e : PyExc)
deriving DecidableEq, Repr

def countOpen (rs : List (Int × Bool × String)) : Nat :=
  (rs.filter (fun o => o.2.1)).length

/-- The `for host in targets:` loop of `main_async`: each host's scan is
wrapped in `try/except Exception`; a success appends the host's entry to
`all_results` and logs the summary line, a failure logs the diagnostic
and records nothing for that host.  `run` is the (possibly raising)
per-host scan; its `Except` result models `await scan_host(...)`. -/
def session_loop (run : String → Except PyExc (List (Int × Bool × String)))
    (nports : Nat) : List String → List (String × List (Int × Bool × String)) × List LogEvent
  | [] => ([], [])
  | h :: rest =>
    match run h with
    | .ok r =>
      ((h, r) :: (session_loop run nports rest).1,
        .scanning h nports :: .finished h (countOpen r) nports ::
          (session_loop run nports rest).2)
    | .error e =>
      ((session_loop run nports rest).1,
        .scanning h nports :: .errorScanning h e :: (session_loop run nports rest).2)

/-- `main_async` (scanner.py lines 145-172): ports are parsed first (a
`ValueError` propagates and aborts the session before any target is
expanded or scanned), then targets are expanded and scanned one at a
time.  Output-file serialization is out of scope. -/
def main_async (portsArg targetArg : String)
    (run : String → List Int → Except PyExc (List (Int × Bool × String))) :
    Except PyExc (List (String × List (Int × Bool × String)) × List LogEvent) :=
  match parse_ports portsArg with
  | .error e => .error e
  | .ok ports =>
    .ok (session_loop (fun h => run h ports) ports.length (expand_targets targetArg))


/-! ## Concrete environments and behaviours used in examples and witnesses -/

/-- Environment of a probe whose connect succeeds but whose banner read
raises (e.g. the peer resets before sending anything). -/
def envBannerFail : ProbeEnv :=
  { connectTime := 0, connectResult := .ok (),
    readTime := 0, readData := .error .osError, waitClosedResult := .ok () }

def envsW : Int → ProbeEnv := fun _ => envRefused

def schedStateW : Nat × Multiset Phase :=
  (1, Phase.connecting ::ₘ Multiset.replicate 2 Phase.idle)

def runW : String → Except PyExc (List (Int × Bool × String)) :=
  fun h => if h = "b" then .error .osError else .ok []

/-! ## Concrete sanity runs of the embedded functions -/

example : parse_ports "22,80-82" = .ok [22, 80, 81, 82] := by decide
example : parse_ports "80,80-81" = .ok [80, 81] := by decide
example : parse_ports " 22 ,, 82 - 80 " = .ok [22, 80, 81, 82] := by decide
example : parse_ports "0,22,70000" = .ok [22] := by decide
example : parse_ports "80,abc" = .error .valueError := by decide
example : parse_ports "100-50" = .ok (intRange 50 100) := by decide

example : expand_targets "10.0.0.0/30" = ["10.0.0.1", "10.0.0.2"] := by decide
example : expand_targets "10.0.0.0/31" = ["10.0.0.0", "10.0.0.1"] := by decide
example : expand_targets "10.0.0.7/32" = ["10.0.0.7"] := by decide
example : expand_targets "10.0.0.5" = ["10.0.0.5"] := by decide
example : expand_targets "not-an-ip.example" = ["not-an-ip.example"] := by decide
example : expand_targets " not-an-ip.example " = ["not-an-ip.example"] := by decide
example : expand_targets "192.168.1.0/28" =
    ["192.168.1.1", "192.168.1.2", "192.168.1.3", "192.168.1.4", "192.168.1.5",
     "192.168.1.6", "192.168.1.7", "192.168.1.8", "192.168.1.9", "192.168.1.10",
     "192.168.1.11", "192.168.1.12", "192.168.1.13", "192.168.1.14"] := by decide
example : expand_targets "10.0.0.99/30" = ["10.0.0.97", "10.0.0.98"] := by decide

example : scan_port "h" 22 1 false envRefused = (22, false, "") := by
  simp [scan_port, scan_port_run, wait_for, envRefused,
    show ¬ ((1 : ℚ) < 0) from by norm_num]
example : scan_port "h" 22 1 false envOpen = (22, true, "") := by
  simp [scan_port, scan_port_run, wait_for, envOpen,
    show ¬ ((1 : ℚ) < 0) from by norm_num]
example : scan_port "h" 22 1 true envOpen = (22, true, "SSH-2.0") := by
  simp [scan_port, scan_port_run, wait_for, envOpen, banner_grab,
    show ¬ ((1 : ℚ) < 0) from by norm_num,
    show ¬ (min (1/2 : ℚ) 1 < 0) from by rw [min_def]; norm_num]
  decide
example : scan_port "h" 22 1 true envCloseErr = (22, false, "") := by
  simp [scan_port, scan_port_run, wait_for, envCloseErr,
    show ¬ ((1 : ℚ) < 0) from by norm_num]

example :
    (session_loop (fun h => if h = "b" then .error .osError else .ok []) 2
      ["a", "b", "c"]).1 = [("a", []), ("c", [])] := by decide

/-! ## Properties of `parse_ports` (claims C6, C7) -/

theorem setUpdate_nodup (vs : List Int) : ∀ s : List Int, s.Nodup → (setUpdate s vs).Nodup := by
  induction vs with
  | nil => intro s h; exact h
  | cons v vs ih =>
    intro s h
    rw [setUpdate, List.foldl_cons]
    refine ih (if v ∈ s then s else s ++ [v]) ?_
    by_cases hv : v ∈ s
    · simpa [hv] using h
    · simp [hv, List.nodup_append, h]

theorem parsePortsAux_nodup : ∀ (parts : List (List Char)) (acc l : List Int),
    acc.Nodup → parsePortsAux parts acc = .ok l → l.Nodup := by
  intro parts
  induction parts with
  | nil =>
    intro acc l h he
    simp only [parsePortsAux] at he
    cases he
    exact h
  | cons hd rest ih =>
    intro acc l h he
    simp only [parsePortsAux] at he
    by_cases hhd : trimChars hd = []
    · rw [if_pos hhd] at he
      exact ih acc l h he
    · rw [if_neg hhd] at he
      cases ht : portToken (trimChars hd) with
      | ok vs =>
        rw [ht] at he
        exact ih (setUpdate acc vs) l (setUpdate_nodup vs acc h) he
      | error e =>
        rw [ht] at he
        cases he

/-- `portToken` can only fail with `ValueError` (Python `int()`'s
exception). -/
theorem portToken_error_eq (part : List Char) (e : PyExc)
    (h : portToken part = .error e) : e = .valueError := by
  unfold portToken at h
  split at h
  · split at h
    · split at h <;> cases h
    · cases h; rfl
  · split at h
    · cases h
    · cases h; rfl

/-- C6: for every port-expression string whose tokens are parseable, the
port parser returns an ascending sequence of distinct values in
[1, 65535]; whitespace around tokens and range endpoints is ignored,
empty tokens are skipped, a reversed range is swapped, duplicates
collapse, and out-of-range values are silently dropped; in particular
`parse_ports "22,80-82" = [22, 80, 81, 82]` and
`parse_ports "80,80-81" = [80, 81]`. -/
theorem C6_parse_ports_sorted_distinct_bounded :
    (∀ (s : String) (l : List Int), parse_ports s = .ok l →
      List.Pairwise (fun a b => a < b) l ∧ ∀ p ∈ l, 1 ≤ p ∧ p ≤ 65535)
    ∧ parse_ports "22,80-82" = .ok [22, 80, 81, 82]
    ∧ parse_ports "80,80-81" = .ok [80, 81]
    ∧ parse_ports " 22 ,, 82 - 80 " = .ok [22, 80, 81, 82]
    ∧ parse_ports "0,22,70000" = .ok [22] := by
  refine ⟨?_, by decide, by decide, by decide, by decide⟩
  intro s l h
  cases haux : parsePortsAux (splitChar ',' s.data) [] with
  | error e => simp [parse_ports, haux, Except.map] at h
  | ok ports =>
    simp only [parse_ports, haux, Except.map] at h
    cases h
    have hnd0 : ports.Nodup := parsePortsAux_nodup _ [] ports List.nodup_nil haux
    have hndf : (ports.filter (fun p => decide (1 ≤ p) && decide (p ≤ 65535))).Nodup :=
      hnd0.filter _
    have hperm := List.perm_insertionSort (fun a b : Int => a ≤ b)
      (ports.filter (fun p => decide (1 ≤ p) && decide (p ≤ 65535)))
    have hnds : (List.insertionSort (fun a b : Int => a ≤ b)
        (ports.filter (fun p => decide (1 ≤ p) && decide (p ≤ 65535)))).Nodup :=
      hperm.nodup_iff.mpr hndf
    have hsorted := List.sorted_insertionSort (fun a b : Int => a ≤ b)
      (ports.filter (fun p => decide (1 ≤ p) && decide (p ≤ 65535)))
    constructor
    · exact (hsorted.and hnds).imp (fun hab => lt_of_le_of_ne hab.1 hab.2)
    · intro p hp
      have hp' := hperm.mem_iff.mp hp
      have := List.of_mem_filter hp'
      simp at this
      exact this

/-- A bad token anywhere in the comma-split list dooms the whole parse:
`parsePortsAux` reaches it (earlier tokens either get skipped, succeed, or
fail with the same `ValueError`) and stops with `ValueError`. -/
theorem parsePortsAux_error_of_bad :
    ∀ (parts : List (List Char)) (acc : List Int) (part : List Char),
      part ∈ parts → trimChars part ≠ [] →
      portToken (trimChars part) = .error .valueError →
      parsePortsAux parts acc = .error .valueError := by
  intro parts
  induction parts with
  | nil => intro acc part h; cases h
  | cons hd rest ih =>
    intro acc part hmem hne hbad
    simp only [parsePortsAux]
    by_cases hhd : trimChars hd = []
    · rw [if_pos hhd]
      rcases List.mem_cons.mp hmem with rfl | hmem2
      · exact absurd hhd hne
      · exact ih acc part hmem2 hne hbad
    · rw [if_neg hhd]
      rcases List.mem_cons.mp hmem with rfl | hmem2
      · rw [hbad]
      · cases ht : portToken (trimChars hd) with
        | ok vs => exact ih (setUpdate acc vs) part hmem2 hne hbad
        | error e => rw [portToken_error_eq (trimChars hd) e ht]

/-- C7: a port-expression containing a non-empty token that `int()`
cannot parse (alone or as an `a-b` pair) makes `parse_ports` raise
`ValueError`; `main_async` propagates it before expanding targets or
scanning anything — for every possible per-host scan behaviour `run` the
session result is the same error, so no probe is consulted and no
partial result list exists. -/
theorem C7_parse_error_aborts_session (s : String)
    (h : ∃ part ∈ splitChar ',' s.data, trimChars part ≠ [] ∧
        portToken (trimChars part) = .error .valueError) :
    parse_ports s = .error .valueError
    ∧ ∀ (targetArg : String)
        (run : String → List Int → Except PyExc (List (Int × Bool × String))),
        main_async s targetArg run = .error .valueError := by
  obtain ⟨part, hmem, hne, hbad⟩ := h
  have haux : parsePortsAux (splitChar ',' s.data) [] = .error .valueError :=
    parsePortsAux_error_of_bad _ [] part hmem hne hbad
  refine ⟨by simp [parse_ports, haux, Except.map], ?_⟩
  intro t run
  simp [main_async, parse_ports, haux, Except.map]

theorem C6_witness :
    List.Pairwise (fun a b => a < b) ([22, 80, 81, 82] : List Int)
    ∧ ∀ p ∈ ([22, 80, 81, 82] : List Int), 1 ≤ p ∧ p ≤ 65535 :=
  C6_parse_ports_sorted_distinct_bounded.1 "22,80-82" [22, 80, 81, 82]
    C6_parse_ports_sorted_distinct_bounded.2.1

theorem C7_witness :
    parse_ports "80,abc" = .error .valueError
    ∧ main_async "80,abc" "localhost" (fun _ _ => .ok []) = .error .valueError := by
  have h := C7_parse_error_aborts_session "80,abc"
    ⟨"abc".data, by decide, by decide, by decide⟩
  exact ⟨h.1, h.2 "localhost" (fun _ _ => .ok [])⟩

/-! ## Properties of the prober (claims C3, C4, C5) -/

theorem scan_port_fst (host : String) (port : Int) (timeout : ℚ) (do_banner : Bool)
    (env : ProbeEnv) : (scan_port host port timeout do_banner env).1 = port := by
  unfold scan_port scan_port_run
  cases hw : wait_for timeout env.connectTime env.connectResult with
  | error e => rfl
  | ok u =>
    cases hc : env.waitClosedResult with
    | ok v => rfl
    | error e => cases e <;> rfl

/-- C3: the port probe never raises to its caller; a connect timeout, a
refusal, any other OS/network error, and any unanticipated exception all
yield the outcome `(port, False, "")` (the probe is a total function by
construction: the `except` clauses of `scan_port` cover every `PyExc`). -/
theorem C3_scan_port_failure_collapses (host : String) (port : Int) (timeout : ℚ)
    (do_banner : Bool) (env : ProbeEnv)
    (h : timeout < env.connectTime ∨ ∃ e, env.connectResult = .error e) :
    scan_port host port timeout do_banner env = (port, false, "") := by
  unfold scan_port scan_port_run wait_for
  rcases h with h | ⟨e, he⟩
  · rw [if_pos h]
  · by_cases ht : timeout < env.connectTime
    · rw [if_pos ht]
    · rw [if_neg ht, he]

theorem C3_witness : scan_port "h" 443 1 true envRefused = (443, false, "") :=
  C3_scan_port_failure_collapses "h" 443 1 true envRefused
    (Or.inr ⟨.connectionRefused, rfl⟩)

/-- C4 counterexample: a probe whose TCP connect completes within the
timeout but whose `wait_closed()` raises an `OSError` (for example the
peer resetting during close) returns `is_open = False` — the close error
does change the outcome, refuting the claim that it never does. -/
theorem C4_counterexample :
    envCloseErr.connectTime ≤ 1 ∧ envCloseErr.connectResult = .ok ()
    ∧ (scan_port "h" 80 1 false envCloseErr).2.1 = false := by
  refine ⟨by decide, rfl, ?_⟩
  simp [scan_port, scan_port_run, wait_for, envCloseErr,
    show ¬ ((1 : ℚ) < 0) from by norm_num]

/-- C4 (amended): when the connect succeeds, `writer.close()` is always
called before returning; a close error never escapes to the caller
(`scan_port` is total), and when closing raises nothing (or only the
locally-swallowed `AttributeError`) the outcome keeps `is_open = True`;
but a `wait_closed()` exception other than `AttributeError` is caught by
the outer `except` clauses and downgrades the outcome to
`(port, False, "")`. -/
theorem C4_close_behaviour (host : String) (port : Int) (timeout : ℚ) (do_banner : Bool)
    (env : ProbeEnv) (hc : env.connectTime ≤ timeout) (hok : env.connectResult = .ok ()) :
    PEvent.closeCalled ∈ (scan_port_run host port timeout do_banner env).2
    ∧ ((env.waitClosedResult = .ok () ∨ env.waitClosedResult = .error .attributeError) →
        (scan_port host port timeout do_banner env).2.1 = true)
    ∧ (∀ e, e ≠ PyExc.attributeError → env.waitClosedResult = .error e →
        scan_port host port timeout do_banner env = (port, false, "")) := by
  have hnt : ¬ timeout < env.connectTime := not_lt.mpr hc
  refine ⟨?_, ?_, ?_⟩
  · unfold scan_port_run wait_for
    rw [if_neg hnt, hok]
    cases hw : env.waitClosedResult with
    | ok u => simp
    | error e => cases e <;> simp
  · intro hclose
    unfold scan_port scan_port_run wait_for
    rw [if_neg hnt, hok]
    rcases hclose with hw | hw <;> rw [hw]
  · intro e hne hw
    unfold scan_port scan_port_run wait_for
    rw [if_neg hnt, hok, hw]
    cases e <;> first | rfl | exact absurd rfl hne

theorem C4_witness :
    envCloseErr.connectTime ≤ 1
    ∧ PEvent.closeCalled ∈ (scan_port_run "h" 80 1 false envCloseErr).2
    ∧ scan_port "h" 80 1 false envCloseErr = (80, false, "") := by
  have h := C4_close_behaviour "h" 80 1 false envCloseErr (by decide) rfl
  exact ⟨by decide, h.1, h.2.2 .osError (by decide) rfl⟩

/-- On a successful connect with a clean (or `AttributeError`-only) close,
`scan_port` with banner grabbing returns exactly the banner computed by
`banner_grab` under the nested budget `min(0.5, timeout)`. -/
theorem scan_port_open_banner (host : String) (port : Int) (timeout : ℚ) (env : ProbeEnv)
    (hc : env.connectTime ≤ timeout) (hok : env.connectResult = .ok ())
    (hclose : env.waitClosedResult = .ok () ∨ env.waitClosedResult = .error .attributeError) :
    scan_port host port timeout true env
      = (port, true, banner_grab env (min (1/2 : ℚ) timeout)) := by
  unfold scan_port scan_port_run wait_for
  rw [if_neg (not_lt.mpr hc), hok]
  rcases hclose with hw | hw <;> rw [hw] <;> rfl

/-- C5: with banner grabbing enabled and the connect succeeded, the banner
read runs under the nested budget `min(0.5, timeout)`, reads at most
`BANNER_READ_BYTES = 1024` bytes, decodes permissively and trims
whitespace; any failure or timeout of the read yields `banner = ""` while
`is_open` stays `True` and nothing is raised (stated here for probes whose
close step does not itself raise, the close-error path being the subject
of C4). -/
theorem C5_banner_read_bounded_nonfatal (host : String) (port : Int) (timeout : ℚ)
    (env : ProbeEnv)
    (hc : env.connectTime ≤ timeout) (hok : env.connectResult = .ok ())
    (hclose : env.waitClosedResult = .ok () ∨ env.waitClosedResult = .error .attributeError) :
    ((min (1/2 : ℚ) timeout < env.readTime ∨ ∃ e, env.readData = .error e) →
        scan_port host port timeout true env = (port, true, ""))
    ∧ (∀ bs, env.readTime ≤ min (1/2 : ℚ) timeout → env.readData = .ok bs →
        scan_port host port timeout true env
          = (port, true, String.mk (trimChars (decodeReplace (bs.take BANNER_READ_BYTES)))))
    ∧ (∀ bs : List Nat, (decodeReplace (bs.take BANNER_READ_BYTES)).length ≤ BANNER_READ_BYTES) := by
  refine ⟨?_, ?_, ?_⟩
  · intro hfail
    rw [scan_port_open_banner host port timeout env hc hok hclose]
    unfold banner_grab wait_for
    rcases hfail with ht | ⟨e, he⟩
    · rw [if_pos ht]
    · by_cases ht : min (1/2 : ℚ) timeout < env.readTime
      · rw [if_pos ht]
      · rw [if_neg ht, he]
        rfl
  · intro bs ht hbs
    rw [scan_port_open_banner host port timeout env hc hok hclose]
    unfold banner_grab wait_for
    rw [if_neg (not_lt.mpr ht), hbs]
    rfl
  · intro bs
    simp [decodeReplace, List.length_take]

theorem C5_witness : scan_port "h" 80 1 true envBannerFail = (80, true, "") :=
  (C5_banner_read_bounded_nonfatal "h" 80 1 envBannerFail (by decide) rfl
    (Or.inl rfl)).1 (Or.inr ⟨.osError, rfl⟩)

/-! ## Shape of the host scan result (claim C1) -/

/-- C1: for every host, port list and probe environment, and every
completion order (any permutation of the submitted per-port tasks), the
host scan returns one outcome per requested port, with length equal to
the port list's length, exactly one outcome for each requested port, and
sorted ascending by port — the result is in fact equal to mapping the
prober over the sorted port list, hence independent of completion order.
(`ports` is a `PortSet`, i.e. duplicate-free, as produced by
`parse_ports`.) -/
theorem C1_scan_host_shape (host : String) (ports : List Int) (timeout : ℚ)
    (do_banner : Bool) (envs : Int → ProbeEnv) (order : List Int)
    (hperm : order.Perm ports) (hnd : ports.Nodup) :
    scan_host host ports timeout do_banner envs order
      = (List.insertionSort (fun a b => a ≤ b) ports).map
          (fun p => scan_port host p timeout do_banner (envs p))
    ∧ (scan_host host ports timeout do_banner envs order).length = ports.length
    ∧ (scan_host host ports timeout do_banner envs order).map Prod.fst
        = List.insertionSort (fun a b => a ≤ b) ports
    ∧ List.Pairwise (fun a b : Int × Bool × String => a.1 < b.1)
        (scan_host host ports timeout do_banner envs order)
    ∧ ∀ p : Int,
        ((scan_host host ports timeout do_banner envs order).map Prod.fst).count p
          = if p ∈ ports then 1 else 0 := by
  haveI : IsTotal (Int × Bool × String) (fun a b => a.1 ≤ b.1) :=
    ⟨fun a b => le_total a.1 b.1⟩
  haveI : IsTrans (Int × Bool × String) (fun a b => a.1 ≤ b.1) :=
    ⟨fun a b c h1 h2 => le_trans h1 h2⟩
  haveI : IsAntisymm (Int × Bool × String) (fun a b => a.1 < b.1) :=
    ⟨fun a b h1 h2 => absurd (lt_trans h1 h2) (lt_irrefl _)⟩
  set E := fun p : Int => scan_port host p timeout do_banner (envs p) with hE
  have hkeys : ∀ l : List Int, (l.map E).map Prod.fst = l := by
    intro l
    rw [List.map_map]
    have hcomp : (Prod.fst ∘ E) = id := by
      funext p
      exact scan_port_fst host p timeout do_banner (envs p)
    rw [hcomp, List.map_id]
  have hndo : order.Nodup := hperm.nodup_iff.mpr hnd
  have hperm1 : (scan_host host ports timeout do_banner envs order).Perm (order.map E) :=
    List.perm_insertionSort _ _
  have hsorted1 : List.Pairwise (fun a b : Int × Bool × String => a.1 ≤ b.1)
      (scan_host host ports timeout do_banner envs order) :=
    List.sorted_insertionSort _ _
  have hkeysL : ((scan_host host ports timeout do_banner envs order).map Prod.fst).Perm order := by
    have := hperm1.map Prod.fst
    rwa [hkeys order] at this
  have hndL : ((scan_host host ports timeout do_banner envs order).map Prod.fst).Nodup :=
    hkeysL.nodup_iff.mpr hndo
  have hstrict1 : List.Pairwise (fun a b : Int × Bool × String => a.1 < b.1)
      (scan_host host ports timeout do_banner envs order) :=
    (hsorted1.and ((List.pairwise_map).mp hndL)).imp
      (fun hab => lt_of_le_of_ne hab.1 hab.2)
  have hpermR : ((List.insertionSort (fun a b : Int => a ≤ b) ports).map E).Perm
      (order.map E) :=
    ((List.perm_insertionSort _ ports).map E).trans (hperm.map E).symm
  have hsortedPorts : List.Pairwise (fun a b : Int => a < b)
      (List.insertionSort (fun a b : Int => a ≤ b) ports) := by
    have hle := List.sorted_insertionSort (fun a b : Int => a ≤ b) ports
    have hndS : (List.insertionSort (fun a b : Int => a ≤ b) ports).Nodup :=
      (List.perm_insertionSort _ ports).nodup_iff.mpr hnd
    exact (hle.and hndS).imp (fun hab => lt_of_le_of_ne hab.1 hab.2)
  have hstrictR : List.Pairwise (fun a b : Int × Bool × String => a.1 < b.1)
      ((List.insertionSort (fun a b : Int => a ≤ b) ports).map E) := by
    refine (List.pairwise_map).mpr (hsortedPorts.imp ?_)
    intro a b hab
    simpa only [hE, scan_port_fst] using hab
  have hmain : scan_host host ports timeout do_banner envs order
      = (List.insertionSort (fun a b : Int => a ≤ b) ports).map E :=
    List.eq_of_perm_of_sorted (hperm1.trans hpermR.symm) hstrict1 hstrictR
  refine ⟨hmain, ?_, ?_, ?_, ?_⟩
  · rw [hmain, List.length_map]
    exact (List.perm_insertionSort _ ports).length_eq
  · rw [hmain]
    exact hkeys _
  · rw [hmain]
    exact hstrictR
  · intro p
    rw [hmain, hkeys, (List.perm_insertionSort (fun a b : Int => a ≤ b) ports).count_eq]
    by_cases hp : p ∈ ports
    · rw [if_pos hp]
      exact List.count_eq_one_of_mem hnd hp
    · rw [if_neg hp]
      exact List.count_eq_zero_of_not_mem hp

theorem C1_witness :
    ([80, 22] : List Int).Perm [22, 80] ∧ ([22, 80] : List Int).Nodup
    ∧ (scan_host "h" [22, 80] 1 false envsW [80, 22]).length = 2 := by
  have h := C1_scan_host_shape "h" [22, 80] 1 false envsW [80, 22] (by decide) (by decide)
  exact ⟨by decide, by decide, h.2.1⟩

/-! ## Concurrency bound of the scheduler (claim C2) -/

theorem regionCount_cons (ph : Phase) (ts : Multiset Phase) :
    regionCount (ph ::ₘ ts) = (if inRegion ph = true then 1 else 0) + regionCount ts := by
  by_cases h : inRegion ph = true
  · simp [regionCount, Multiset.filter_cons_of_pos, h]
    omega
  · simp [regionCount, Multiset.filter_cons_of_neg, h]

theorem regionCount_replicate_idle (n : Nat) :
    regionCount (Multiset.replicate n Phase.idle) = 0 := by
  induction n with
  | zero => rfl
  | succ n ih => rw [Multiset.replicate_succ, regionCount_cons]; simp [inRegion, ih]

/-- Each scheduler step preserves `free slots + tasks in region = conc`. -/
theorem schedStep_invariant {s t : Nat × Multiset Phase} (h : SchedStep s t) (conc : Nat)
    (hs : s.1 + regionCount s.2 = conc) : t.1 + regionCount t.2 = conc := by
  cases h <;> simp [regionCount_cons, inRegion] at hs ⊢ <;> omega

theorem schedReachable_invariant (conc numPorts : Nat) (s : Nat × Multiset Phase)
    (h : SchedReachable conc numPorts s) : s.1 + regionCount s.2 = conc := by
  unfold SchedReachable at h
  induction h with
  | refl => simp [regionCount_replicate_idle]
  | tail _ hstep ih => exact schedStep_invariant hstep conc ih

/-- C2: in every state the scheduler of one host scan can reach, at most
`conc` probe tasks are simultaneously past the limiter-acquire point and
before the release point (never exceeded even transiently); the slot
count rises only when a task's probe returns (its phase moves to `done`,
from a failed connect or from after the close), and a task starts
connecting only by taking a free slot — so each slot is acquired before
the connect attempt and held for the probe's entire lifetime, including
the optional banner read and the close. -/
theorem C2_semaphore_bound :
    (∀ (conc numPorts : Nat) (s : Nat × Multiset Phase),
        SchedReachable conc numPorts s → regionCount s.2 ≤ conc)
    ∧ (∀ s t : Nat × Multiset Phase, SchedStep s t → s.1 < t.1 →
        ∃ rest, t.2 = Phase.done ::ₘ rest
          ∧ (s.2 = Phase.connecting ::ₘ rest ∨ s.2 = Phase.closing ::ₘ rest))
    ∧ (∀ s t : Nat × Multiset Phase, SchedStep s t →
        Multiset.count Phase.connecting s.2 < Multiset.count Phase.connecting t.2 →
          ∃ rest, s.1 = t.1 + 1 ∧ s.2 = Phase.idle ::ₘ rest
            ∧ t.2 = Phase.connecting ::ₘ rest) := by
  refine ⟨?_, ?_, ?_⟩
  · intro conc numPorts s h
    have := schedReachable_invariant conc numPorts s h
    omega
  · intro s t h hlt
    cases h with
    | acquire sem rest => omega
    | connectFail sem rest => exact ⟨rest, rfl, Or.inl rfl⟩
    | connectOkBanner sem rest => omega
    | connectOkNoBanner sem rest => omega
    | readDone sem rest => omega
    | closeDone sem rest => exact ⟨rest, rfl, Or.inr rfl⟩
  · intro s t h hcount
    cases h with
    | acquire sem rest => exact ⟨rest, rfl, rfl, rfl⟩
    | connectFail sem rest => simp [Multiset.count_cons] at hcount
    | connectOkBanner sem rest => simp [Multiset.count_cons] at hcount
    | connectOkNoBanner sem rest => simp [Multiset.count_cons] at hcount
    | readDone sem rest => simp [Multiset.count_cons] at hcount
    | closeDone sem rest => simp [Multiset.count_cons] at hcount

theorem C2_witness : SchedReachable 2 3 schedStateW ∧ regionCount schedStateW.2 ≤ 2 := by
  have hreach : SchedReachable 2 3 schedStateW := by
    unfold SchedReachable
    have h0 : Multiset.replicate 3 Phase.idle
        = Phase.idle ::ₘ Multiset.replicate 2 Phase.idle := by
      rw [Multiset.replicate_succ]
    rw [h0]
    exact Relation.ReflTransGen.single
      (SchedStep.acquire 1 (Multiset.replicate 2 Phase.idle))
  exact ⟨hreach, C2_semaphore_bound.1 2 3 schedStateW hreach⟩

/-! ## Properties of target expansion (claims C8, C10) -/

theorem hostsOfNetwork_ne_nil (network p : Nat) (hp : p ≤ 32) :
    hostsOfNetwork network p ≠ [] := by
  unfold hostsOfNetwork
  split
  · rename_i h31
    apply List.ne_nil_of_length_pos
    simp [List.length_map, List.length_range]
  · rename_i h31
    apply List.ne_nil_of_length_pos
    simp [List.length_map, List.length_range]
    have h2 : 2 ≤ 32 - p := by omega
    have h4 : 2 ^ 2 ≤ 2 ^ (32 - p) := Nat.pow_le_pow_right (by norm_num) h2
    omega

/-- C10: the CIDR edge prefixes — `.hosts()` of a /31 yields both
addresses of the pair, a /32 yields its single address, while any prefix
up to /30 excludes exactly the network and broadcast addresses; no CIDR
ever expands to an empty target list. -/
theorem C10_cidr_edge_prefixes :
    (∀ network : Nat, hostsOfNetwork network 31 = [network, network + 1])
    ∧ (∀ network : Nat, hostsOfNetwork network 32 = [network])
    ∧ (∀ network p : Nat, p ≤ 30 →
        (hostsOfNetwork network p).length = 2 ^ (32 - p) - 2
        ∧ network ∉ hostsOfNetwork network p
        ∧ network + 2 ^ (32 - p) - 1 ∉ hostsOfNetwork network p)
    ∧ (∀ network p : Nat, p ≤ 32 → hostsOfNetwork network p ≠ [])
    ∧ expand_targets "10.0.0.0/31" = ["10.0.0.0", "10.0.0.1"]
    ∧ expand_targets "10.0.0.7/32" = ["10.0.0.7"] := by
  refine ⟨?_, ?_, ?_, hostsOfNetwork_ne_nil, by decide, by decide⟩
  · intro network
    have hr : List.range 2 = [0, 1] := by decide
    simp [hostsOfNetwork, hr]
  · intro network
    have hr : List.range 1 = [0] := by decide
    simp [hostsOfNetwork, hr]
  · intro network p hp
    have h4 : 2 ^ 2 ≤ 2 ^ (32 - p) := Nat.pow_le_pow_right (by norm_num) (by omega)
    unfold hostsOfNetwork
    rw [if_neg (by omega)]
    refine ⟨by simp [List.length_map, List.length_range], ?_, ?_⟩
    · simp only [List.mem_map, List.mem_range]
      rintro ⟨i, hi, hie⟩
      omega
    · simp only [List.mem_map, List.mem_range]
      rintro ⟨i, hi, hie⟩
      omega

theorem C10_witness :
    (hostsOfNetwork 167772160 30).length = 2
    ∧ (167772160 : Nat) ∉ hostsOfNetwork 167772160 30 := by
  have h := C10_cidr_edge_prefixes.2.2.1 167772160 30 (by decide)
  refine ⟨?_, h.2.1⟩
  rw [h.1]
  decide

/-! ## Session driver boundary (claim C9) -/

theorem session_loop_results
    (run : String → Except PyExc (List (Int × Bool × String))) (nports : Nat) :
    ∀ hosts : List String,
      (session_loop run nports hosts).1
        = hosts.filterMap (fun h => match run h with
            | .ok r => some (h, r)
            | .error _ => none) := by
  intro hosts
  induction hosts with
  | nil => rfl
  | cons hd rest ih =>
    cases hr : run hd <;> simp [session_loop, hr, List.filterMap_cons, ih]

theorem session_loop_log
    (run : String → Except PyExc (List (Int × Bool × String))) (nports : Nat) :
    ∀ (hosts : List String) (h : String) (e : PyExc), h ∈ hosts → run h = .error e →
      LogEvent.errorScanning h e ∈ (session_loop run nports hosts).2 := by
  intro hosts
  induction hosts with
  | nil => intro h e hmem; cases hmem
  | cons hd rest ih =>
    intro h e hmem he
    rcases List.mem_cons.mp hmem with rfl | hmem2
    · simp only [session_loop, he]
      exact List.mem_cons_of_mem _ (List.mem_cons_self _ _)
    · cases hr : run hd with
      | ok r =>
        simp only [session_loop, hr]
        exact List.mem_cons_of_mem _ (List.mem_cons_of_mem _ (ih h e hmem2 he))
      | error e2 =>
        simp only [session_loop, hr]
        exact List.mem_cons_of_mem _ (List.mem_cons_of_mem _ (ih h e hmem2 he))

/-- C9: the session driver scans hosts strictly in list order and wraps
each host's scan in a recoverable boundary — the recorded results are
exactly the successful hosts in their original order (an exception
escaping one host's scan is caught, a diagnostic log event is emitted,
no entry is recorded for that host, and the remaining hosts are still
scanned). -/
theorem C9_driver_recoverable_boundary :
    (∀ (run : String → Except PyExc (List (Int × Bool × String))) (nports : Nat)
        (hosts : List String),
      (session_loop run nports hosts).1
        = hosts.filterMap (fun h => match run h with
            | .ok r => some (h, r)
            | .error _ => none))
    ∧ (∀ run nports hosts (h : String) (e : PyExc), h ∈ hosts → run h = .error e →
        LogEvent.errorScanning h e ∈ (session_loop run nports hosts).2)
    ∧ (∀ run nports hosts (h : String) (e : PyExc), run h = .error e →
        h ∉ ((session_loop run nports hosts).1.map Prod.fst)) := by
  refine ⟨fun run nports => session_loop_results run nports,
    fun run nports => session_loop_log run nports, ?_⟩
  intro run nports hosts h e he hmem
  rw [session_loop_results run nports hosts] at hmem
  obtain ⟨⟨h2, r⟩, hpair, hfst⟩ := List.mem_map.mp hmem
  obtain ⟨a, ha, hfa⟩ := List.mem_filterMap.mp hpair
  cases hra : run a with
  | ok r2 =>
    rw [hra] at hfa
    cases hfa
    cases hfst
    rw [he] at hra
    cases hra
  | error e2 =>
    rw [hra] at hfa
    cases hfa

theorem C9_witness :
    LogEvent.errorScanning "b" PyExc.osError ∈ (session_loop runW 2 ["a", "b", "c"]).2
    ∧ "b" ∉ ((session_loop runW 2 ["a", "b", "c"]).1.map Prod.fst) :=
  ⟨C9_driver_recoverable_boundary.2.1 runW 2 ["a", "b", "c"] "b" .osError
      (by decide) (by decide),
    C9_driver_recoverable_boundary.2.2 runW 2 ["a", "b", "c"] "b" .osError (by decide)⟩
